import Mathlib

/-!
Verification of the NLU geospatial-query service (`nlu_main.py`).

The file embeds the core of the source, function by function:
  * `METRIC_KEYWORDS`, `LOCATION_PATTERN`, the month/relative-time search
    (source lines 29-65) — metric, location and time extraction;
  * `TIME_TOKENS` and `sanitize_location` (lines 67-84);
  * `extract_metric_from_owm` (lines 101-115);
  * `split_locations` (lines 117-121);
  * `api_get_metric` (lines 142-172), with the provider call
    `call_openweathermap_current` abstracted as a `Gateway` oracle
    (its key/transport failures become the oracle's `.error` results).

The regular expressions that appear in the source use only literals,
case-insensitive literals, `(?:...)?` optional groups, `\b` word
boundaries and greedy one-or-more character classes, so a small
backtracking engine (`RE`, `matchRE`) over exactly those constructs
embeds them.  Python semantics respected: leftmost match, alternatives
tried in order, greedy quantifiers with backtracking, `re.sub`
non-overlapping left-to-right scanning.  Character handling is ASCII
(every string the service manipulates or compares here is ASCII;
Python's unicode case folding coincides with ASCII folding on them).
Numeric JSON payloads are modelled as rationals: the service never
performs arithmetic on them, it only passes them through, so `ℚ`
carries the values `2.5`, `1.0`, `0.0` exactly.
-/

/-! ### Python character and string helpers -/

/-- Python `\s` (ASCII range): space, tab, newline, carriage return,
vertical tab, form feed. -/
def isPySpace (c : Char) : Bool :=
  c == ' ' || c == '\t' || c == '\n' || c == '\r' || c == '\x0b' || c == '\x0c'

/-- Python `\w` (ASCII range): letters, digits, underscore. -/
def isWordChar (c : Char) : Bool :=
  c.isAlphanum || c == '_'

/-- Word-ness of an optional character; the ends of the string count as
non-word, which is how `\b` treats them. -/
def isWordCharO : Option Char → Bool
  | none => false
  | some c => isWordChar c

/-- Python `str.lower` on one character (ASCII mapping `A`-`Z` to `a`-`z`). -/
def pyCharLower (c : Char) : Char :=
  if 65 ≤ c.toNat ∧ c.toNat ≤ 90 then Char.ofNat (c.toNat + 32) else c

/-- Python `str.lower` (ASCII). -/
def pyLower (s : String) : String :=
  String.mk (s.data.map pyCharLower)

/-- Python `str.strip()` on a character list: drop leading and trailing
whitespace. -/
def pyStripList (cs : List Char) : List Char :=
  ((cs.dropWhile isPySpace).reverse.dropWhile isPySpace).reverse

/-- Python `str.strip()`. -/
def pyStrip (s : String) : String :=
  String.mk (pyStripList s.data)

/-- Python `str.strip(",")`: drop leading and trailing commas. -/
def stripCommaList (cs : List Char) : List Char :=
  ((cs.dropWhile (· == ',')).reverse.dropWhile (· == ',')).reverse

/-! ### A small regex engine

Exactly the constructs used by the patterns in the source. -/

/-- Regular expressions over the constructs the source uses: literal
sequences (exact and case-insensitive), concatenation, greedy
`(?:...)?`, `\b`, and a greedy `[class]+`. -/
inductive RE where
  | lit : List Char → RE
  | litCI : List Char → RE
  | seq : RE → RE → RE
  | opt : RE → RE
  | wb : RE
  | plusCls : (Char → Bool) → RE

/-- Exact character comparison. -/
def charEq (a b : Char) : Bool := a == b

/-- `re.IGNORECASE` character comparison (ASCII folding). -/
def charEqCI (a b : Char) : Bool := pyCharLower a == pyCharLower b

/-- Match a literal character sequence under comparison `eq`, threading
the previously consumed character (for later `\b` tests) and the rest of
the input into the continuation. -/
def matchLit {α : Type} (eq : Char → Char → Bool) :
    List Char → Option Char → List Char → (Option Char → List Char → Option α) → Option α
  | [], prev, cs, k => k prev cs
  | c :: ls, _, cs, k =>
    match cs with
    | [] => none
    | d :: cs' => if eq c d then matchLit eq ls (some d) cs' k else none

/-- Greedy tail of `[class]+` after one character `c` has been consumed:
try to extend first, and only on failure hand the shorter match to the
continuation (Python's greedy backtracking). -/
def matchPlusAux {α : Type} (p : Char → Bool) (c : Char) :
    List Char → (Option Char → List Char → Option α) → Option α
  | [], k => k (some c) []
  | d :: cs', k =>
    (if p d then matchPlusAux p d cs' k else none).orElse
      (fun _ => k (some c) (d :: cs'))

/-- CPS matcher: `matchRE r prev cs k` attempts `r` at the start of `cs`
(where `prev` is the character just before this position in the full
input) and on success calls `k` with the new previous character and the
remaining input.  Backtracking order follows Python: greedy `opt`,
alternatives in written order (alternation appears only as lists of
`RE`s, handled by the callers below). -/
def matchRE {α : Type} : RE → Option Char → List Char → (Option Char → List Char → Option α) → Option α
  | .lit ls, prev, cs, k => matchLit charEq ls prev cs k
  | .litCI ls, prev, cs, k => matchLit charEqCI ls prev cs k
  | .seq r1 r2, prev, cs, k => matchRE r1 prev cs (fun p2 cs2 => matchRE r2 p2 cs2 k)
  | .opt r, prev, cs, k => (matchRE r prev cs k).orElse (fun _ => k prev cs)
  | .wb, prev, cs, k =>
    if isWordCharO prev != isWordCharO cs.head? then k prev cs else none
  | .plusCls _, _, [], _ => none
  | .plusCls p, _, c :: cs', k => if p c then matchPlusAux p c cs' k else none

/-- `re.search` scan: try the pattern at every position, left to right. -/
def searchFrom (r : RE) : Option Char → List Char → Bool
  | prev, [] => (matchRE r prev [] (fun _ _ => some true)).isSome
  | prev, c :: cs' =>
    (matchRE r prev (c :: cs') (fun _ _ => some true)).isSome || searchFrom r (some c) cs'

/-- Does `r` match anywhere in `cs` (Python `re.search(r, cs) is not None`)? -/
def reSearch (r : RE) (cs : List Char) : Bool :=
  searchFrom r none cs

/-- First alternative (in list order) that matches at the current
position, returning the last consumed character and the remaining
input — Python alternation semantics. -/
def firstMatchRE : List RE → Option Char → List Char → Option (Option Char × List Char)
  | [], _, _ => none
  | r :: rs, prev, cs =>
    (matchRE r prev cs (fun p2 cs2 => some (p2, cs2))).orElse
      (fun _ => firstMatchRE rs prev cs)

/-- `re.sub(alternation, "", ·)` worker: scan left to right, delete each
leftmost non-overlapping match, keep other characters.  Fuel is
`length + 1`, enough because every step either consumes a match of
length ≥ 1 or emits one character (the zero-width guard is never hit by
the patterns used here, which all consume at least one character). -/
def subAllAux (rs : List RE) : Nat → Option Char → List Char → List Char
  | 0, _, cs => cs
  | fuel + 1, prev, cs =>
    match firstMatchRE rs prev cs with
    | some (p2, rest) =>
      if rest.length < cs.length then subAllAux rs fuel p2 rest
      else
        match cs with
        | [] => []
        | c :: cs' => c :: subAllAux rs fuel (some c) cs'
    | none =>
      match cs with
      | [] => []
      | c :: cs' => c :: subAllAux rs fuel (some c) cs'

/-- Python `re.sub(alternation, "", s)`. -/
def reSubAll (rs : List RE) (cs : List Char) : List Char :=
  subAllAux rs (cs.length + 1) none cs

/-- `re.split` worker: pieces between leftmost non-overlapping matches. -/
def splitAux (rs : List RE) : Nat → Option Char → List Char → List Char → List (List Char)
  | 0, _, cs, acc => [acc.reverse ++ cs]
  | fuel + 1, prev, cs, acc =>
    match firstMatchRE rs prev cs with
    | some (p2, rest) =>
      if rest.length < cs.length then acc.reverse :: splitAux rs fuel p2 rest []
      else
        match cs with
        | [] => [acc.reverse]
        | c :: cs' => splitAux rs fuel (some c) cs' (c :: acc)
    | none =>
      match cs with
      | [] => [acc.reverse]
      | c :: cs' => splitAux rs fuel (some c) cs' (c :: acc)

/-- Python `re.split(alternation, s)`. -/
def reSplit (rs : List RE) (cs : List Char) : List (List Char) :=
  splitAux rs (cs.length + 1) none cs []

/-! ### The metric lexicon (source lines 29-35) -/

/-- `METRIC_KEYWORDS` (lines 29-35): dict-insertion order preserved, each
regex pattern embedded structurally.  The patterns are searched against
the already lower-cased text, so exact literals suffice except where the
source writes `\b`. -/
def METRIC_KEYWORDS : List (String × List RE) := [
  ("temperature",
    [RE.seq (.lit "temp".data) (.opt (.lit "erature".data)),
     .lit "hotter".data, .lit "colder".data, .lit "degrees".data,
     .lit "°c".data, .lit "°f".data,
     .seq .wb (.seq (.lit "weather".data) .wb)]),
  ("rainfall",
    [RE.seq (.lit "rain".data) (.opt (.lit "fall".data)),
     .lit "precipitation".data, .lit "mm of rain".data, .lit "rainy".data]),
  ("humidity", [RE.lit "humidity".data, .lit "humid".data]),
  ("wind_speed",
    [RE.seq (.lit "wind".data) (.opt (.lit " speed".data)),
     .lit "windspeed".data, .lit "wind gust".data]),
  ("pressure", [RE.lit "pressure".data, .lit "hpa".data, .lit "atm".data])]

/-- The metric identifiers, in declaration order (the dict's keys). -/
def metricNames : List String := METRIC_KEYWORDS.map Prod.fst

/-! ### Location capture (source line 37, used at lines 57-59) -/

/-- The character class `[A-Z0-9a-z \-_,]` of `LOCATION_PATTERN`. -/
def locClassChar (c : Char) : Bool :=
  ('A' ≤ c && c ≤ 'Z') || ('a' ≤ c && c ≤ 'z') || ('0' ≤ c && c ≤ '9') ||
  c == ' ' || c == '-' || c == '_' || c == ','

/-- One attempt of `LOCATION_PATTERN = r"in ([A-Z0-9a-z \-_,]+)"` (with
`re.IGNORECASE`) at the current position: `i`, `n`, a space, then a
non-empty greedy run of class characters, which is group 1.  Nothing
follows the group in the pattern, so the greedy run is maximal. -/
def locMatchAt : List Char → Option (List Char)
  | ci :: cn :: sp :: tail =>
    if charEqCI ci 'i' && charEqCI cn 'n' && sp == ' ' then
      let run := tail.takeWhile locClassChar
      if run.isEmpty then none else some run
    else none
  | _ => none

/-- `re.search(LOCATION_PATTERN, text, re.IGNORECASE)`: leftmost position
wins; returns group 1. -/
def findLocationFrom : List Char → Option (List Char)
  | [] => none
  | c :: rest => (locMatchAt (c :: rest)).orElse (fun _ => findLocationFrom rest)

/-! ### Time-phrase search (source lines 60-64) -/

/-- The alternation `months` of line 60, alternatives in written order. -/
def months : List String :=
  ["january", "february", "march", "april", "may", "june", "july", "august",
   "september", "october", "november", "december", "today", "now", "yesterday",
   "last week", "this week"]

/-- First alternative of a literal alternation that matches at the
current position (Python tries alternatives in order; the matched text of
a literal alternative is the literal itself). -/
def firstPrefixAt (ws : List String) (cs : List Char) : Option String :=
  ws.find? (fun w => w.data.isPrefixOf cs)

/-- `re.search` of a literal alternation: scan left to right, first
position with a match wins, and there the first alternative in order. -/
def searchLits (ws : List String) : List Char → Option String
  | [] => firstPrefixAt ws []
  | c :: rest => (firstPrefixAt ws (c :: rest)).orElse (fun _ => searchLits ws rest)

/-! ### extract_metrics (source lines 48-65) -/

/-- The value returned by `extract_metrics`. -/
structure ExtractionResult where
  metrics : List String
  location : Option String
  time : Option String
deriving DecidableEq

/-- `list(dict.fromkeys(found))`: deduplicate keeping first occurrences. -/
def pyDedup (seen : List String) : List String → List String
  | [] => []
  | a :: l => if a ∈ seen then pyDedup seen l else a :: pyDedup (a :: seen) l

/-- `extract_metrics` (lines 48-65): per-metric pattern loop with break,
first `in <phrase>` capture on the original-case text, month/relative
time search on the lower-cased text, dedup via `dict.fromkeys`. -/
def extract_metrics (text : String) : ExtractionResult :=
  let low := text.data.map pyCharLower
  let found := (METRIC_KEYWORDS.filter (fun mp => mp.2.any (fun r => reSearch r low))).map Prod.fst
  let location := (findLocationFrom text.data).map (fun run => pyStrip (String.mk run))
  let t := searchLits months low
  { metrics := pyDedup [] found, location := location, time := t }

/-! ### sanitize_location (source lines 67-84) -/

/-- `\bw\b` with `re.IGNORECASE`. -/
def wbTok (w : String) : RE :=
  .seq .wb (.seq (.litCI w.data) .wb)

/-- `\broot(?:suffix)?\b` with `re.IGNORECASE`. -/
def wbTokOpt (root suffix : String) : RE :=
  .seq .wb (.seq (.litCI root.data) (.seq (.opt (.litCI suffix.data)) .wb))

/-- `_TIME_TOKENS` / `_TIME_RE` (lines 67-74), alternatives in written
order. -/
def TIME_TOKENS : List RE :=
  [wbTok "now", wbTok "today", wbTok "yesterday", wbTok "last", wbTok "this",
   wbTok "next", wbTok "week", wbTok "month",
   wbTokOpt "jan" "uary", wbTokOpt "feb" "ruary", wbTokOpt "mar" "ch",
   wbTokOpt "apr" "il", wbTok "may", wbTokOpt "jun" "e", wbTokOpt "jul" "y",
   wbTokOpt "aug" "ust", wbTokOpt "sep" "tember", wbTokOpt "oct" "ober",
   wbTokOpt "nov" "ember", wbTokOpt "dec" "ember"]

/-- `\s{2,}` → `" "`: each maximal whitespace run of length ≥ 2 becomes a
single space; an isolated whitespace character is left as it is. -/
def collapseWsAux : Nat → List Char → List Char
  | 0, cs => cs
  | _ + 1, [] => []
  | fuel + 1, c :: cs =>
    if isPySpace c then
      match cs with
      | d :: cs' =>
        if isPySpace d then ' ' :: collapseWsAux fuel (cs'.dropWhile isPySpace)
        else c :: collapseWsAux fuel cs
      | [] => [c]
    else c :: collapseWsAux fuel cs

/-- `re.sub(r"\s{2,}", " ", s)`. -/
def collapseWs (cs : List Char) : List Char :=
  collapseWsAux cs.length cs

/-- `sanitize_location` (lines 76-84).  `if not raw_location` covers both
`None` and the empty string; the final `return loc or None` never lets an
empty string out. -/
def sanitize_location : Option String → Option String
  | none => none
  | some raw =>
    if raw = "" then none
    else
      let l1 := pyStripList (raw.data.map (fun c => if c == '(' || c == ')' then ' ' else c))
      let l2 := pyStripList ((l1.reverse.dropWhile (fun c => c == '.' || c == ',' || c == ';' || c == ':')).reverse)
      let l3 := pyStripList (reSubAll TIME_TOKENS l2)
      let l4 := stripCommaList (pyStripList (collapseWs l3))
      if l4.isEmpty then none else some (String.mk l4)

/-! ### The provider payload and extract_metric_from_owm (lines 101-115) -/

/-- The `rain` sub-object: optional `1h` and `3h` readings. -/
structure RainData where
  h1 : Option ℚ
  h3 : Option ℚ
deriving DecidableEq

/-- The `main` sub-object: the fields the service consumes. -/
structure MainData where
  temp : Option ℚ
  humidity : Option ℚ
  pressure : Option ℚ
deriving DecidableEq

/-- The `wind` sub-object. -/
structure WindData where
  speed : Option ℚ
deriving DecidableEq

/-- The slice of an OpenWeatherMap response the service consumes.
`rain = none` also stands for a `rain` key bound to a non-dict value,
which the source treats identically (the `isinstance` check at
line 112). -/
structure OwmResponse where
  main : Option MainData
  wind : Option WindData
  rain : Option RainData
deriving DecidableEq

/-- Python truthiness of `dict.get`'s result: `None` and `0.0` are falsy. -/
def pyTruthy : Option ℚ → Bool
  | none => false
  | some q => decide (q ≠ 0)

/-- Python `a or b` on such values. -/
def pyOr (a b : Option ℚ) : Option ℚ :=
  if pyTruthy a then a else b

/-- `extract_metric_from_owm` (lines 101-115).  `d.get(k, {}).get(f)` is
`Option.bind`; the rainfall branch is the literal
`rain.get("1h") or rain.get("3h") or 0.0`. -/
def extract_metric_from_owm (metric : String) (owm : OwmResponse) : Option ℚ :=
  if metric = "temperature" then owm.main.bind MainData.temp
  else if metric = "humidity" then owm.main.bind MainData.humidity
  else if metric = "pressure" then owm.main.bind MainData.pressure
  else if metric = "wind_speed" then owm.wind.bind WindData.speed
  else if metric = "rainfall" then
    match owm.rain with
    | some rain => pyOr (pyOr rain.h1 rain.h3) (some 0)
    | none => some 0
  else none

/-! ### split_locations (source lines 117-121) -/

/-- The split alternation `r"\s+and\s+|,|;|/|\|"` with `re.IGNORECASE`,
alternatives in written order. -/
def SPLIT_TOKENS : List RE :=
  [.seq (.plusCls isPySpace) (.seq (.litCI "and".data) (.plusCls isPySpace)),
   .lit ",".data, .lit ";".data, .lit "/".data, .lit "|".data]

/-- `split_locations` (lines 117-121): regex split, then
`[p.strip() for p in parts if p and p.strip()]`. -/
def split_locations : Option String → List String
  | none => []
  | some raw =>
    if raw = "" then []
    else
      (reSplit SPLIT_TOKENS raw.data).filterMap (fun p =>
        let t := pyStripList p
        if p ≠ [] ∧ t ≠ [] then some (String.mk t) else none)

/-! ### api_get_metric (source lines 142-172) -/

/-- One row of the `results` list built at line 165. -/
structure MetricQueryResult where
  metric : String
  location : String
  value : Option ℚ
  units : String
  provider : String
deriving DecidableEq

/-- One row of the `errors` list built at lines 167/169. -/
structure MetricQueryError where
  location : String
  error : String
deriving DecidableEq

/-- The `HTTPException`s `api_get_metric` can raise: the 400s
(lines 146, 148, 158) and the 502 aggregate failure (line 171). -/
inductive ApiError where
  | badRequest : String → ApiError
  | badGateway : List MetricQueryError → ApiError
deriving DecidableEq

/-- The provider boundary: `call_openweathermap_current(loc, api_key)`
for the ambient credential configuration.  `.error` covers every way the
call can raise (missing key, empty location, transport, non-success HTTP
status), carrying the exception's message. -/
def Gateway : Type := String → Except String OwmResponse

/-- The per-location loop of lines 159-169: each candidate independently
becomes a result (gateway success) or an error (any exception), in input
order. -/
def processLoop (gw : Gateway) (metric : String) :
    List String → List MetricQueryResult × List MetricQueryError
  | [] => ([], [])
  | loc :: rest =>
    let pr := processLoop gw metric rest
    match gw loc with
    | .ok owm =>
      ({ metric := metric, location := loc,
         value := extract_metric_from_owm metric owm,
         units := "metric (see provider)", provider := "openweathermap" } :: pr.1,
       pr.2)
    | .error e => (pr.1, { location := loc, error := e } :: pr.2)

/-- Lines 151-156: split the raw location and keep the candidates that
sanitize to something non-empty. -/
def cleanLocations (location : String) : List String :=
  (split_locations (some location)).filterMap (fun rl => sanitize_location (some rl))

/-- `api_get_metric` (lines 142-172).  The `location` query parameter
defaults to `None`; `if not location` treats `None` and `""` alike. -/
def api_get_metric (gw : Gateway) (metric : String) (location : Option String) :
    Except ApiError (List MetricQueryResult × List MetricQueryError) :=
  let m := pyLower metric
  if m ∈ metricNames then
    if location.getD "" = "" then
      .error (.badRequest "location query param is required")
    else
      let clean := cleanLocations (location.getD "")
      if clean = [] then
        .error (.badRequest "No valid location found after parsing and sanitization")
      else
        let pr := processLoop gw m clean
        if pr.1 = [] ∧ pr.2 ≠ [] then .error (.badGateway pr.2) else .ok pr
  else .error (.badRequest ("Metric not supported: " ++ m))

/-! ### Auxiliary definitions used by the claim statements -/

/-- First truthy (present and non-zero) value, else the default — the
amended rainfall rule written from its own words, for comparison with
`extract_metric_from_owm`. -/
def nzOr (a : Option ℚ) (d : ℚ) : ℚ :=
  match a with
  | some q => if q = 0 then d else q
  | none => d

/-- The amended rainfall specification: the `1h` value when it is present
and non-zero, else the `3h` value when it is present and non-zero, else
`0.0`; `0.0` when no rain object is present. -/
def rainfallAmendedRule (r : OwmResponse) : ℚ :=
  match r.rain with
  | none => 0
  | some ro => nzOr ro.h1 (nzOr ro.h3 0)

/-- A provider response whose rain object carries `1h = 0.0` and
`3h = 1.0` — the input on which the stated rainfall rule and the code
disagree. -/
def c1CounterResponse : OwmResponse :=
  { main := none, wind := none, rain := some { h1 := some 0, h3 := some 1 } }

/-- A gateway whose every call succeeds with fixed current conditions. -/
def gwOk : Gateway :=
  fun _ => .ok { main := some { temp := some 20, humidity := some 50, pressure := some 1013 },
                 wind := some { speed := some 5 }, rain := none }

/-- A gateway whose every call fails (for example, transport failure). -/
def gwFail : Gateway :=
  fun _ => .error "connection refused"

/-- A gateway that succeeds only for the location `"Paris"`. -/
def gwParisOnly : Gateway :=
  fun loc => if loc = "Paris" then gwOk loc else .error "404 city not found"

/-! ### Helper lemmas -/

theorem toNat_ofNat_of_valid (n : Nat) (h : n.isValidChar) : (Char.ofNat n).toNat = n := by
  unfold Char.ofNat
  rw [dif_pos h]
  rfl

theorem pyCharLower_idem (c : Char) : pyCharLower (pyCharLower c) = pyCharLower c := by
  unfold pyCharLower
  by_cases h : 65 ≤ c.toNat ∧ c.toNat ≤ 90
  · rw [if_pos h]
    have hv : (c.toNat + 32).isValidChar := Or.inl (by omega)
    have ht : (Char.ofNat (c.toNat + 32)).toNat = c.toNat + 32 := toNat_ofNat_of_valid _ hv
    rw [if_neg (by omega)]
  · rw [if_neg h, if_neg h]

theorem pyLower_idem (s : String) : pyLower (pyLower s) = pyLower s := by
  unfold pyLower
  simp only [List.map_map]
  exact congrArg String.mk (List.map_congr_left (fun c _ => pyCharLower_idem c))

theorem head_of_dropWhile (p : Char → Bool) :
    ∀ (l : List Char) (c : Char), (l.dropWhile p).head? = some c → p c = false := by
  intro l
  induction l with
  | nil => intro c h; simp [List.dropWhile] at h
  | cons a t ih =>
    intro c h
    by_cases ha : p a
    · rw [List.dropWhile_cons_of_pos ha] at h
      exact ih c h
    · rw [List.dropWhile_cons_of_neg ha] at h
      simp at h
      rw [← h]
      exact Bool.not_eq_true _ ▸ (by simpa using ha)

theorem dropWhile_eq_self_of_head (p : Char → Bool) (l : List Char)
    (h : ∀ c, l.head? = some c → p c = false) : l.dropWhile p = l := by
  cases l with
  | nil => rfl
  | cons a t => rw [List.dropWhile_cons_of_neg (by simp [h a rfl])]

theorem dropWhile_dropWhile (p : Char → Bool) (l : List Char) :
    (l.dropWhile p).dropWhile p = l.dropWhile p :=
  dropWhile_eq_self_of_head p _ (head_of_dropWhile p l)

theorem pyStripList_idem (cs : List Char) : pyStripList (pyStripList cs) = pyStripList cs := by
  unfold pyStripList
  set L := cs.dropWhile isPySpace with hL
  set X := L.reverse.dropWhile isPySpace with hX
  -- the left-trimmed result `X.reverse` is a prefix of `L`
  have hsuf : X <:+ L.reverse := List.dropWhile_suffix isPySpace
  have hpre : X.reverse <+: L := by
    have : X.reverse.reverse <:+ L.reverse := by
      rw [List.reverse_reverse]; exact hsuf
    exact List.reverse_suffix.mp this
  -- step A: X.reverse has no leading whitespace, so dropWhile leaves it alone
  have hA : X.reverse.dropWhile isPySpace = X.reverse := by
    apply dropWhile_eq_self_of_head
    intro c hc
    rcases hpre with ⟨r, hr⟩
    have hLhead : L.head? = some c := by
      rw [← hr]
      cases hxr : X.reverse with
      | nil => rw [hxr] at hc; simp at hc
      | cons b t =>
        rw [hxr] at hc
        simp at hc
        simp [hxr, hc]
    have hLhead2 : (cs.dropWhile isPySpace).head? = some c := by rw [← hL]; exact hLhead
    exact head_of_dropWhile isPySpace cs c hLhead2
  -- step B: after reversing, what remains is exactly X, already dropWhile-fixed
  rw [hA, List.reverse_reverse]
  rw [show X.dropWhile isPySpace = X from by rw [hX]; exact dropWhile_dropWhile _ _]

theorem pyDedup_sublist : ∀ (l seen : List String), List.Sublist (pyDedup seen l) l := by
  intro l
  induction l with
  | nil => intro seen; simp [pyDedup]
  | cons a t ih =>
    intro seen
    unfold pyDedup
    by_cases h : a ∈ seen
    · rw [if_pos h]
      exact (ih seen).cons a
    · rw [if_neg h]
      exact (ih (a :: seen)).cons₂ a

theorem pyDedup_not_mem : ∀ (l seen : List String) (a : String), a ∈ seen → a ∉ pyDedup seen l := by
  intro l
  induction l with
  | nil => intro seen a _; simp [pyDedup]
  | cons b t ih =>
    intro seen a ha
    unfold pyDedup
    by_cases h : b ∈ seen
    · rw [if_pos h]
      exact ih seen a ha
    · rw [if_neg h]
      intro hmem
      rcases List.mem_cons.mp hmem with heq | htail
      · exact h (heq ▸ ha)
      · exact ih (b :: seen) a (List.mem_cons_of_mem b ha) htail

theorem pyDedup_nodup : ∀ (l seen : List String), (pyDedup seen l).Nodup := by
  intro l
  induction l with
  | nil => intro seen; simp [pyDedup]
  | cons a t ih =>
    intro seen
    unfold pyDedup
    by_cases h : a ∈ seen
    · rw [if_pos h]; exact ih seen
    · rw [if_neg h]
      exact List.nodup_cons.mpr ⟨pyDedup_not_mem t (a :: seen) a (List.mem_cons_self a seen), ih (a :: seen)⟩

theorem processLoop_locs_perm (gw : Gateway) (m : String) :
    ∀ cands : List String,
      (((processLoop gw m cands).1.map MetricQueryResult.location) ++
        ((processLoop gw m cands).2.map MetricQueryError.location)).Perm cands := by
  intro cands
  induction cands with
  | nil => simp [processLoop]
  | cons loc rest ih =>
    simp only [processLoop]
    cases hgw : gw loc with
    | ok owm =>
      simpa using ih.cons loc
    | error e =>
      exact List.perm_middle.trans (ih.cons loc)

theorem api_run (gw : Gateway) (metric : String) (location : Option String)
    (h1 : pyLower metric ∈ metricNames) (h2 : location.getD "" ≠ "")
    (h3 : cleanLocations (location.getD "") ≠ []) :
    api_get_metric gw metric location =
      (if (processLoop gw (pyLower metric) (cleanLocations (location.getD ""))).1 = [] ∧
          (processLoop gw (pyLower metric) (cleanLocations (location.getD ""))).2 ≠ []
       then .error (.badGateway (processLoop gw (pyLower metric) (cleanLocations (location.getD ""))).2)
       else .ok (processLoop gw (pyLower metric) (cleanLocations (location.getD "")))) := by
  simp only [api_get_metric]
  rw [if_pos h1, if_neg h2, if_neg h3]

theorem api_reject (gw : Gateway) (metric : String) (location : Option String)
    (h : pyLower metric ∉ metricNames ∨ location.getD "" = "" ∨ cleanLocations (location.getD "") = []) :
    api_get_metric gw metric location =
      (if pyLower metric ∉ metricNames then
         .error (.badRequest ("Metric not supported: " ++ pyLower metric))
       else if location.getD "" = "" then
         .error (.badRequest "location query param is required")
       else
         .error (.badRequest "No valid location found after parsing and sanitization")) := by
  simp only [api_get_metric]
  by_cases h1 : pyLower metric ∈ metricNames
  · rw [if_pos h1, if_neg (not_not_intro h1)]
    by_cases h2 : location.getD "" = ""
    · rw [if_pos h2, if_pos h2]
    · rw [if_neg h2, if_neg h2]
      have h3 : cleanLocations (location.getD "") = [] := by
        rcases h with ha | hb | hc
        · exact absurd h1 ha
        · exact absurd hb h2
        · exact hc
      rw [if_pos h3]
  · rw [if_neg h1, if_pos h1]

theorem searchLits_eq_none_iff (ws : List String) :
    ∀ cs : List Char, searchLits ws cs = none ↔ ∀ i, firstPrefixAt ws (cs.drop i) = none := by
  intro cs
  induction cs with
  | nil =>
    constructor
    · intro h i
      rw [List.drop_nil]
      exact h
    · intro h
      have := h 0
      rwa [List.drop_nil] at this
  | cons c rest ih =>
    simp only [searchLits]
    cases h : firstPrefixAt ws (c :: rest) with
    | some w =>
      simp only [Option.orElse]
      constructor
      · intro hc; cases hc
      · intro hall
        have := hall 0
        rw [List.drop_zero, h] at this
        cases this
    | none =>
      simp only [Option.orElse]
      rw [ih]
      constructor
      · intro hall i
        cases i with
        | zero => rw [List.drop_zero]; exact h
        | succ j => rw [List.drop_succ_cons]; exact hall j
      · intro hall j
        have := hall (j + 1)
        rwa [List.drop_succ_cons] at this

theorem searchLits_eq_some (ws : List String) :
    ∀ (cs : List Char) (w : String), searchLits ws cs = some w →
      ∃ i, firstPrefixAt ws (cs.drop i) = some w ∧ ∀ j, j < i → firstPrefixAt ws (cs.drop j) = none := by
  intro cs
  induction cs with
  | nil =>
    intro w h
    refine ⟨0, ?_, ?_⟩
    · rw [List.drop_nil]; exact h
    · intro j hj; omega
  | cons c rest ih =>
    intro w h
    simp only [searchLits] at h
    cases hf : firstPrefixAt ws (c :: rest) with
    | some w2 =>
      rw [hf] at h
      simp only [Option.orElse] at h
      refine ⟨0, ?_, ?_⟩
      · rw [List.drop_zero, hf]; exact h
      · intro j hj; omega
    | none =>
      rw [hf] at h
      simp only [Option.orElse] at h
      rcases ih w h with ⟨i, hi, hj⟩
      refine ⟨i + 1, ?_, ?_⟩
      · rw [List.drop_succ_cons]; exact hi
      · intro j hjlt
        cases j with
        | zero => rw [List.drop_zero]; exact hf
        | succ j2 => rw [List.drop_succ_cons]; exact hj j2 (by omega)

theorem isInfix_iff_exists_drop (w l : List Char) :
    w <:+: l ↔ ∃ i, w <+: l.drop i := by
  constructor
  · rintro ⟨s, t, h⟩
    refine ⟨s.length, t, ?_⟩
    rw [← h, List.append_assoc, List.drop_left]
  · rintro ⟨i, t, ht⟩
    refine ⟨l.take i, t, ?_⟩
    rw [List.append_assoc, ht, List.take_append_drop]

theorem pyOr_nz (a b : Option ℚ) : pyOr (pyOr a b) (some 0) = some (nzOr a (nzOr b 0)) := by
  cases a with
  | none =>
    cases b with
    | none => rfl
    | some q =>
      by_cases hq : q = 0 <;> simp [pyOr, pyTruthy, nzOr, hq]
  | some q =>
    by_cases hq : q = 0
    · cases b with
      | none => simp [pyOr, pyTruthy, nzOr, hq]
      | some q3 => by_cases hq3 : q3 = 0 <;> simp [pyOr, pyTruthy, nzOr, hq, hq3]
    · simp [pyOr, pyTruthy, nzOr, hq]

theorem ifEmpty_ne_empty (l : List Char) : (if l.isEmpty then none else some (String.mk l)) ≠ some "" := by
  cases l with
  | nil => simp
  | cons c t =>
    simp only [List.isEmpty_cons, Bool.false_eq_true, if_false]
    intro h
    injection h with h2
    have h3 := congrArg String.data h2
    simp at h3

/-! ### Claim theorems -/

/-- C1, counterexample: on a response whose rain object has `1h = 0.0`
and `3h = 1.0`, the code resolves rainfall to `1.0` — not to the present
`1h` value `0.0` as the claim states — because Python's `or` treats the
value `0.0` as falsy and falls through to `3h`. -/
theorem c1_rainfall_counterexample :
    c1CounterResponse.rain = some { h1 := some 0, h3 := some 1 } ∧
    extract_metric_from_owm "rainfall" c1CounterResponse = some 1 ∧
    ¬ extract_metric_from_owm "rainfall" c1CounterResponse = some 0 := by
  decide

/-- C1, amended: resolving the rainfall metric returns the rain object's
`1h` value when it is present and non-zero, else its `3h` value when it
is present and non-zero, else `0.0`; and `0.0` when no rain object is
present.  In particular `rain {"1h": 2.5}` resolves to `2.5`, and
`rain {"3h": 1.0}` with no `1h` resolves to `1.0`. -/
theorem c1_rainfall_amended :
    (∀ r : OwmResponse, extract_metric_from_owm "rainfall" r = some (rainfallAmendedRule r)) ∧
    extract_metric_from_owm "rainfall"
      { main := none, wind := none, rain := some { h1 := some (5/2), h3 := none } } = some (5/2) ∧
    extract_metric_from_owm "rainfall"
      { main := none, wind := none, rain := some { h1 := none, h3 := some 1 } } = some 1 ∧
    extract_metric_from_owm "rainfall" { main := none, wind := none, rain := none } = some 0 := by
  refine ⟨?_, ?_, by decide, by decide⟩
  case refine_2 =>
    show pyOr (pyOr (some ((5 : ℚ)/2)) none) (some 0) = some ((5 : ℚ)/2)
    have h52 : ((5 : ℚ)/2) ≠ 0 := by norm_num
    simp [pyOr, pyTruthy, h52]
  intro r
  rcases r with ⟨m, w, rain⟩
  cases rain with
  | none => rfl
  | some ro =>
    rcases ro with ⟨h1, h3⟩
    show pyOr (pyOr h1 h3) (some 0) = some (nzOr h1 (nzOr h3 0))
    exact pyOr_nz h1 h3

/-- C5, counterexample: on the text `"How much rain in Berlin next
week"` the claim fails — the captured location is `"in Berlin next
week"` (the pattern `in (...)` already matches inside the word
`"rain"`), which sanitizes to `"in Berlin"`, not `"Berlin"`; and the
time vocabulary contains `"last week"` and `"this week"` but not
`"next week"`, so no time is extracted. -/
theorem c5_extraction_counterexample :
    ¬ ((extract_metrics "How much rain in Berlin next week").metrics = ["rainfall"] ∧
       sanitize_location (extract_metrics "How much rain in Berlin next week").location = some "Berlin" ∧
       (extract_metrics "How much rain in Berlin next week").time = some "next week") := by
  decide

/-- C5, amended: extracting from the text `"How much rain in Berlin next
week"` yields metrics `["rainfall"]`, the location capture `"in Berlin
next week"` — which sanitizes to `"in Berlin"` (the time words removed,
but the `"in"` picked up from inside `"rain"` retained) — and no time
phrase. -/
theorem c5_extraction_amended :
    extract_metrics "How much rain in Berlin next week" =
      { metrics := ["rainfall"], location := some "in Berlin next week", time := none } ∧
    sanitize_location (some "in Berlin next week") = some "in Berlin" := by
  decide

/-- C7: for every input text, the metrics list of the extraction result
contains no duplicate identifiers, and the matched metrics appear as a
sublist of the lexicon's declared order (temperature, rainfall,
humidity, wind_speed, pressure) — i.e. in declaration order, not in
match-position order. -/
theorem c7_metrics_nodup_order (text : String) :
    (extract_metrics text).metrics.Nodup ∧
    List.Sublist (extract_metrics text).metrics metricNames ∧
    metricNames = ["temperature", "rainfall", "humidity", "wind_speed", "pressure"] := by
  refine ⟨?_, ?_, by decide⟩
  · exact pyDedup_nodup _ _
  · have h1 := pyDedup_sublist
      ((METRIC_KEYWORDS.filter
        (fun mp => mp.2.any (fun r => reSearch r (text.data.map pyCharLower)))).map Prod.fst) []
    have h2 : List.Sublist
        ((METRIC_KEYWORDS.filter
          (fun mp => mp.2.any (fun r => reSearch r (text.data.map pyCharLower)))).map Prod.fst)
        (METRIC_KEYWORDS.map Prod.fst) :=
      List.Sublist.map Prod.fst (List.filter_sublist _)
    exact h1.trans h2

/-- C8: sanitizing an absent (or empty, which Python's falsiness treats
the same) location yields absent; a location that becomes empty after
the cleanup steps is reported as absent, never as an empty string; and
sanitizing `"Paris (today)"` yields `"Paris"`. -/
theorem c8_sanitize_never_empty :
    sanitize_location none = none ∧
    sanitize_location (some "") = none ∧
    (∀ s : String, sanitize_location (some s) ≠ some "") ∧
    sanitize_location (some "Paris (today)") = some "Paris" := by
  refine ⟨rfl, by decide, ?_, by decide⟩
  intro s
  simp only [sanitize_location]
  by_cases hs : s = ""
  · simp [hs]
  · rw [if_neg hs]
    exact ifEmpty_ne_empty _

/-- C10: the metric-query operation lower-cases the metric parameter
before checking membership in the known-metric set, so for every metric
string the query behaves identically to the query with the lower-cased
metric (e.g. `"TEMPERATURE"` is treated as `"temperature"`). -/
theorem c10_metric_case_insensitive (gw : Gateway) (metric : String) (location : Option String) :
    api_get_metric gw metric location = api_get_metric gw (pyLower metric) location := by
  simp only [api_get_metric, pyLower_idem]

theorem api_reject_no_ok (gw : Gateway) (metric : String) (location : Option String)
    (h : pyLower metric ∉ metricNames ∨ location.getD "" = "" ∨ cleanLocations (location.getD "") = []) :
    (∀ v, api_get_metric gw metric location ≠ .ok v) ∧
    (∀ es, api_get_metric gw metric location ≠ .error (.badGateway es)) := by
  rw [api_reject gw metric location h]
  constructor
  · intro v hv
    split at hv
    · cases hv
    · split at hv <;> cases hv
  · intro es hes
    split at hes
    · cases hes
    · split at hes <;> cases hes

/-- C2: whenever the orchestrator's preconditions pass (it returns a
result/error pair, or aggregates errors), the locations of the produced
`MetricQueryResult`s and `MetricQueryError`s together are exactly — as a
permutation, so with multiplicity — the surviving sanitized candidates:
each candidate yields exactly one result or one error, none is silently
dropped, and one candidate's gateway failure never prevents the others
from being processed (the partition holds for every gateway oracle,
however many candidates it fails). -/
theorem c2_partition (gw : Gateway) (metric : String) (location : Option String) :
    (∀ rs es, api_get_metric gw metric location = .ok (rs, es) →
      ((rs.map MetricQueryResult.location ++ es.map MetricQueryError.location)).Perm
        (cleanLocations (location.getD ""))) ∧
    (∀ es, api_get_metric gw metric location = .error (.badGateway es) →
      (es.map MetricQueryError.location).Perm (cleanLocations (location.getD ""))) := by
  by_cases h1 : pyLower metric ∈ metricNames
  · by_cases h2 : location.getD "" = ""
    · have hno := api_reject_no_ok gw metric location (Or.inr (Or.inl h2))
      exact ⟨fun rs es hok => absurd hok (hno.1 _), fun es hbad => absurd hbad (hno.2 _)⟩
    · by_cases h3 : cleanLocations (location.getD "") = []
      · have hno := api_reject_no_ok gw metric location (Or.inr (Or.inr h3))
        exact ⟨fun rs es hok => absurd hok (hno.1 _), fun es hbad => absurd hbad (hno.2 _)⟩
      · have hrun := api_run gw metric location h1 h2 h3
        constructor
        · intro rs es hok
          rw [hrun] at hok
          by_cases h4 : (processLoop gw (pyLower metric) (cleanLocations (location.getD ""))).1 = [] ∧
              (processLoop gw (pyLower metric) (cleanLocations (location.getD ""))).2 ≠ []
          · rw [if_pos h4] at hok; cases hok
          · rw [if_neg h4] at hok
            injection hok with hok2
            have hr : (processLoop gw (pyLower metric) (cleanLocations (location.getD ""))).1 = rs :=
              congrArg Prod.fst hok2
            have he : (processLoop gw (pyLower metric) (cleanLocations (location.getD ""))).2 = es :=
              congrArg Prod.snd hok2
            rw [← hr, ← he]
            exact processLoop_locs_perm gw (pyLower metric) (cleanLocations (location.getD ""))
        · intro es hbad
          rw [hrun] at hbad
          by_cases h4 : (processLoop gw (pyLower metric) (cleanLocations (location.getD ""))).1 = [] ∧
              (processLoop gw (pyLower metric) (cleanLocations (location.getD ""))).2 ≠ []
          · rw [if_pos h4] at hbad
            injection hbad with hbad2
            injection hbad2 with hbad3
            have hperm := processLoop_locs_perm gw (pyLower metric) (cleanLocations (location.getD ""))
            rw [h4.1, hbad3] at hperm
            simpa using hperm
          · rw [if_neg h4] at hbad; cases hbad
  · have hno := api_reject_no_ok gw metric location (Or.inl h1)
    exact ⟨fun rs es hok => absurd hok (hno.1 _), fun es hbad => absurd hbad (hno.2 _)⟩

/-- C2, witness: with a gateway that succeeds for `"Paris"` and fails for
`"Tokyo"`, querying temperature for `"Paris and Tokyo"` yields one
result and one error, whose locations are a permutation of the sanitized
candidates. -/
theorem c2_partition_witness :
    api_get_metric gwParisOnly "temperature" (some "Paris and Tokyo") =
      .ok ([{ metric := "temperature", location := "Paris", value := some 20,
              units := "metric (see provider)", provider := "openweathermap" }],
           [{ location := "Tokyo", error := "404 city not found" }]) ∧
    (([{ metric := "temperature", location := "Paris", value := some 20,
         units := "metric (see provider)", provider := "openweathermap" }].map MetricQueryResult.location ++
      [({ location := "Tokyo", error := "404 city not found" } : MetricQueryError)].map MetricQueryError.location)).Perm
      (cleanLocations ((some "Paris and Tokyo").getD "")) :=
  ⟨rfl, (c2_partition gwParisOnly "temperature" (some "Paris and Tokyo")).1 _ _ rfl⟩

/-- C3: whenever the orchestrator's preconditions pass, if after
processing all surviving candidates the result set is empty and the
error set is non-empty, it surfaces the 502-style aggregate failure
carrying the full per-location error list, with one entry per candidate;
otherwise it returns the result set and the error set together. -/
theorem c3_aggregate_failure (gw : Gateway) (metric : String) (location : Option String)
    (h1 : pyLower metric ∈ metricNames) (h2 : location.getD "" ≠ "")
    (h3 : cleanLocations (location.getD "") ≠ []) :
    ∀ rs es, processLoop gw (pyLower metric) (cleanLocations (location.getD "")) = (rs, es) →
      ((rs = [] ∧ es ≠ []) →
        api_get_metric gw metric location = .error (.badGateway es) ∧
        es.length = (cleanLocations (location.getD "")).length) ∧
      (¬ (rs = [] ∧ es ≠ []) → api_get_metric gw metric location = .ok (rs, es)) := by
  intro rs es hpr
  have hrun := api_run gw metric location h1 h2 h3
  rw [hpr] at hrun
  constructor
  · rintro ⟨hrs, hes⟩
    constructor
    · rw [hrun]
      exact if_pos ⟨hrs, hes⟩
    · have hperm := processLoop_locs_perm gw (pyLower metric) (cleanLocations (location.getD ""))
      rw [hpr] at hperm
      have hlen := hperm.length_eq
      rw [hrs] at hlen
      simpa using hlen
  · intro hne
    rw [hrun]
    exact if_neg hne

/-- C3, witness: with a gateway that fails every call, querying
temperature for `"Paris and Tokyo"` raises the aggregate 502 failure with
one error entry per candidate. -/
theorem c3_aggregate_failure_witness :
    api_get_metric gwFail "temperature" (some "Paris and Tokyo") =
      .error (.badGateway [{ location := "Paris", error := "connection refused" },
                           { location := "Tokyo", error := "connection refused" }]) ∧
    ([{ location := "Paris", error := "connection refused" },
      { location := "Tokyo", error := "connection refused" }] : List MetricQueryError).length =
      (cleanLocations ((some "Paris and Tokyo").getD "")).length :=
  (c3_aggregate_failure gwFail "temperature" (some "Paris and Tokyo")
      (by decide) (by decide) (by decide)
      [] [{ location := "Paris", error := "connection refused" },
          { location := "Tokyo", error := "connection refused" }]
      rfl).1 ⟨rfl, by decide⟩

/-- C4: a metric query whose (lower-cased, cf. C10) metric identifier is
outside the closed five-member set, or whose location is missing or
empty, or whose location yields zero surviving sanitized candidates, is
rejected with a 400-style InvalidInput/NoValidLocation error before any
network call occurs — the outcome is identical for every gateway oracle,
so the gateway is never consulted. -/
theorem c4_reject_before_network (gw gw2 : Gateway) (metric : String) (location : Option String)
    (h : pyLower metric ∉ metricNames ∨ location.getD "" = "" ∨
         cleanLocations (location.getD "") = []) :
    api_get_metric gw metric location = api_get_metric gw2 metric location ∧
    ∃ d, api_get_metric gw metric location = .error (.badRequest d) := by
  constructor
  · rw [api_reject gw metric location h, api_reject gw2 metric location h]
  · rw [api_reject gw metric location h]
    split
    · exact ⟨_, rfl⟩
    · split
      · exact ⟨_, rfl⟩
      · exact ⟨_, rfl⟩

/-- C4, witness: the unknown metric `"moisture"` is rejected with a 400
for every gateway (two different oracles give the same outcome, so no
network call is made). -/
theorem c4_reject_before_network_witness :
    api_get_metric gwFail "moisture" (some "Paris") = api_get_metric gwOk "moisture" (some "Paris") ∧
    ∃ d, api_get_metric gwFail "moisture" (some "Paris") = .error (.badRequest d) :=
  c4_reject_before_network gwFail gwOk "moisture" (some "Paris") (Or.inl (by decide))

theorem isPrefixOfBridge {w cs : List Char} : w.isPrefixOf cs = true ↔ w <+: cs :=
  List.isPrefixOf_iff_prefix

/-- C6: for every input text, time detection searches the lower-cased
text for the fixed closed vocabulary (the twelve month names and the
relative phrases today, now, yesterday, "last week", "this week" — as
written in the source's alternation, full month names only); the first
match wins (leftmost position, earlier alternative at equal position),
and when no vocabulary word occurs the time field is absent. -/
theorem c6_time_detection (text : String) :
    ((extract_metrics text).time = none ↔
      ∀ w ∈ months, ¬ w.data <:+: text.data.map pyCharLower) ∧
    (∀ w, (extract_metrics text).time = some w →
      w ∈ months ∧ w.data <:+: text.data.map pyCharLower ∧
      ∃ i, firstPrefixAt months ((text.data.map pyCharLower).drop i) = some w ∧
        ∀ j, j < i → firstPrefixAt months ((text.data.map pyCharLower).drop j) = none) := by
  have htime : (extract_metrics text).time = searchLits months (text.data.map pyCharLower) := rfl
  constructor
  · rw [htime, searchLits_eq_none_iff]
    constructor
    · intro hall w hw hinf
      rcases (isInfix_iff_exists_drop w.data _).mp hinf with ⟨i, hpre⟩
      have hnone := hall i
      unfold firstPrefixAt at hnone
      rw [List.find?_eq_none] at hnone
      exact hnone w hw (isPrefixOfBridge.mpr hpre)
    · intro hnone i
      unfold firstPrefixAt
      rw [List.find?_eq_none]
      intro w hw hbool
      exact hnone w hw ((isInfix_iff_exists_drop w.data _).mpr ⟨i, isPrefixOfBridge.mp hbool⟩)
  · intro w hw
    rw [htime] at hw
    rcases searchLits_eq_some months _ w hw with ⟨i, hi, hj⟩
    have hw_mem : w ∈ months := List.mem_of_find?_eq_some hi
    have hpred := List.find?_some hi
    exact ⟨hw_mem, (isInfix_iff_exists_drop _ _).mpr ⟨i, isPrefixOfBridge.mp hpred⟩, i, hi, hj⟩

/-- C6, witness: in `"rain today"` the word `"today"` is detected — it is
in the vocabulary, occurs in the lower-cased text, and its position is
the leftmost with any vocabulary match. -/
theorem c6_time_detection_witness :
    "today" ∈ months ∧
    "today".data <:+: ("rain today".data.map pyCharLower) ∧
    ∃ i, firstPrefixAt months (("rain today".data.map pyCharLower).drop i) = some "today" ∧
      ∀ j, j < i → firstPrefixAt months (("rain today".data.map pyCharLower).drop j) = none :=
  (c6_time_detection "rain today").2 "today" rfl

/-- C9: the splitter divides a raw location on the case-insensitive
whitespace-surrounded word "and", comma, semicolon, forward slash or
vertical bar; pieces are trimmed, empty pieces are discarded (every
surviving piece is non-empty and trim-fixed), surviving pieces keep
left-to-right order, and an absent (or empty, which Python treats alike)
input yields the empty sequence; concretely `"Paris and Tokyo, London"`
splits to `["Paris", "Tokyo", "London"]`. -/
theorem c9_split :
    split_locations none = [] ∧
    split_locations (some "") = [] ∧
    split_locations (some "Paris and Tokyo, London") = ["Paris", "Tokyo", "London"] ∧
    split_locations (some "A; B/C | D AND E") = ["A", "B", "C", "D", "E"] ∧
    (∀ s p, p ∈ split_locations (some s) → p ≠ "" ∧ pyStrip p = p) := by
  refine ⟨rfl, by decide, by decide, by decide, ?_⟩
  intro s p hp
  simp only [split_locations] at hp
  by_cases hs : s = ""
  · rw [if_pos hs] at hp
    cases hp
  · rw [if_neg hs] at hp
    rcases List.mem_filterMap.mp hp with ⟨q, _, hqe⟩
    by_cases hcond : q ≠ [] ∧ pyStripList q ≠ []
    · rw [if_pos hcond] at hqe
      injection hqe with hqe2
      rw [← hqe2]
      constructor
      · intro hemp
        have hdata := congrArg String.data hemp
        simp at hdata
        exact hcond.2 hdata
      · show pyStrip (String.mk (pyStripList q)) = String.mk (pyStripList q)
        unfold pyStrip
        exact congrArg String.mk (pyStripList_idem q)
    · rw [if_neg hcond] at hqe
      cases hqe

/-- C9, witness: the piece `"Tokyo"` produced for the input
`"Paris and Tokyo, London"` is non-empty and trim-fixed. -/
theorem c9_split_witness : ("Tokyo" : String) ≠ "" ∧ pyStrip "Tokyo" = "Tokyo" :=
  c9_split.2.2.2.2 "Paris and Tokyo, London" "Tokyo" (by decide)

/-- C8, witness: a concrete location made only of parentheses and a time
word sanitizes to absent, not to the empty string. -/
theorem c8_sanitize_never_empty_witness : sanitize_location (some "((today))") ≠ some "" :=
  c8_sanitize_never_empty.2.2.1 "((today))"

/-- C6, counterexample: the standard month abbreviation `"jan"` occurs in
the lower-cased text `"rainfall in jan"`, yet no time is detected — the
detection vocabulary (source line 60) contains only full month names,
not the abbreviations (those appear only in the sanitizer's
`_TIME_TOKENS`). -/
theorem c6_abbrev_counterexample :
    (extract_metrics "rainfall in jan").time = none ∧
    "jan" ∉ months ∧
    "jan".data <:+: ("rainfall in jan".data.map pyCharLower) :=
  ⟨rfl, by decide, ⟨"rainfall in ".data, [], by decide⟩⟩
